import Mathlib

/-! QuickUtils: the class `CBatteryNotifier` of src/BatteryNotifier.h

A shallow embedding of the battery notifier class and proofs of the
properties its design document states about it.

Modelling conventions
* The class is compiled with `WIN32` defined (otherwise `notifyUser` and
  `monitorHigherLimit` have empty bodies).
* `unsigned int` members are `Nat`; `BYTE` fields of the platform structure
  `SYSTEM_POWER_STATUS` are `Nat` and every read of a `BYTE` reduces it
  modulo `2^8`.
* `(char)b` is the signed 8-bit reinterpretation of a byte (`char` is signed
  on the target compiler); a comparison of an `unsigned int` with a `char`
  converts the `char` to `int` and then to `unsigned int`, i.e. modulo `2^32`.
* A member function that calls `notifyUser` returns the new object together
  with the list of `notifyUser` calls it made, in order.
* `::GetSystemPowerStatus` is an input: `none` when the call fails, `some`
  of the structure it filled in otherwise.
* `startBatteryMonitoring` never returns; it is modelled on the first `n`
  iterations of its `do ... while (true)` loop, given the `n` results of the
  power status call.
-/

namespace BatteryNotifier

/-! ## Constants (lines 53-59) -/

def kDefaultMaxBatteryLimit : Nat := 90

def kAppHelpText : String :=
  "\n\nUsage:\n********\n\nBatteryNotifier.exe /? (Help)\nBatteryNotifier.exe <5-99> (Default value is:90%)"

/-! ## Platform types and conversions -/

/-- The two fields of the Windows structure `SYSTEM_POWER_STATUS` that the
class reads; both are of type `BYTE`. -/
structure SYSTEM_POWER_STATUS where
  ACLineStatus : Nat
  BatteryLifePercent : Nat
  deriving DecidableEq, Repr

/-- The value of a `BYTE`. -/
def byteVal (b : Nat) : Nat := b % 256

/-- The cast `(char)b` of a `BYTE`: signed 8-bit reinterpretation. -/
def toChar (b : Nat) : Int :=
  if byteVal b < 128 then (byteVal b : Int) else (byteVal b : Int) - 256

/-- Conversion of an `int` to `unsigned int` (32 bits). -/
def toUnsigned (i : Int) : Nat := (i % 4294967296).toNat

/-- The function `to_tstring` applied to an `unsigned int`. -/
def to_tstring (n : Nat) : String := toString n

/-- The function `to_tstring` applied to a `char`, which is promoted to `int`. -/
def to_tstringInt (i : Int) : String := toString i

/-! ## The class -/

/-- One call of `notifyUser(message, bBeep)` (lines 140-158): the message box
text and whether the beep thread runs while the box is open. -/
structure Notification where
  message : String
  bBeep : Bool
  deriving DecidableEq, Repr

/-- The data members of `CBatteryNotifier` (lines 203-204) with their default
member initialisers. -/
structure CBatteryNotifier where
  m_bStartMonitoring : Bool := true
  m_HigherLimit : Nat := 0
  m_NextHighLimit : Nat := 0
  deriving DecidableEq, Repr

/-- The object returned by `instance()` on its first use. -/
def instance0 : CBatteryNotifier := {}

/-- The text of the message box of line 169. -/
def firstCrossingText (m_HigherLimit : Nat) : String :=
  "Please remove the charger....\nBattery percentage is >= " ++ to_tstring m_HigherLimit ++ "%"

/-- The text of the message box of line 179. -/
def reNotifyText (percent : Int) (m_HigherLimit : Nat) : String :=
  "You have not removed the charger...Please remove it....\nBattery percentage is exceeding "
    ++ to_tstringInt percent ++ " % > " ++ to_tstring m_HigherLimit ++ "%"

/-- The member function `monitorHigherLimit` (lines 163-185). -/
def monitorHigherLimit (self : CBatteryNotifier) (status : Option SYSTEM_POWER_STATUS) :
    CBatteryNotifier × List Notification :=
  match status with
  | none => (self, [])
  | some powerStatus =>
    if 1 = toChar powerStatus.ACLineStatus ∧ 0 = self.m_NextHighLimit
        ∧ self.m_HigherLimit ≤ toUnsigned (toChar powerStatus.BatteryLifePercent) then
      let out : List Notification := [⟨firstCrossingText self.m_HigherLimit, true⟩]
      if self.m_HigherLimit ≤ toUnsigned (toChar powerStatus.BatteryLifePercent) then
        ({ self with m_NextHighLimit := byteVal powerStatus.BatteryLifePercent }, out)
      else
        (self, out)
    else
      if self.m_NextHighLimit > toUnsigned (toChar powerStatus.BatteryLifePercent)
          ∧ self.m_HigherLimit > toUnsigned (toChar powerStatus.BatteryLifePercent) then
        ({ self with m_NextHighLimit := 0 }, [])
      else if 1 = toChar powerStatus.ACLineStatus ∧ 0 < self.m_NextHighLimit
          ∧ self.m_NextHighLimit < toUnsigned (toChar powerStatus.BatteryLifePercent) then
        ({ self with m_NextHighLimit := byteVal powerStatus.BatteryLifePercent },
          [⟨reNotifyText (toChar powerStatus.BatteryLifePercent) self.m_HigherLimit, true⟩])
      else
        (self, [])

/-- The predicate of the lambda in `isNumeric` negated: `std::isdigit(c)`. -/
def isdigit (c : Char) : Bool := decide (48 ≤ c.toNat) && decide (c.toNat ≤ 57)

/-- The member function `isNumeric` (lines 127-133). -/
def isNumeric (str : String) : Bool :=
  !str.data.isEmpty && (str.data.find? (fun c => !isdigit c)).isNone

/-- The decimal value of a list of digit characters. -/
def decimalValue (cs : List Char) : Nat :=
  cs.foldl (fun acc c => acc * 10 + (c.toNat - 48)) 0

/-- The extraction `val >> percent` (lines 90-92) into an `unsigned int` from a
stream holding a string of decimal digits: the value read, or the largest
`unsigned int` when the value does not fit (the stream then fails). -/
def extractUnsigned (str : String) : Nat :=
  if decimalValue str.data ≤ 4294967295 then decimalValue str.data else 4294967295

/-- The member function `processCommandLine` (lines 78-106); `argv[1]` is read
only when `argc` is 2. -/
def processCommandLine (self : CBatteryNotifier) (argc : Int) (argv : List String) :
    CBatteryNotifier × List Notification :=
  if 2 ≠ argc then
    (self, [])
  else
    let param := argv.getD 1 ""
    if param = "/?" then
      ({ self with m_bStartMonitoring := false }, [⟨kAppHelpText, false⟩])
    else if isNumeric param then
      let percent := extractUnsigned param
      if 5 > percent ∧ 99 < percent then
        ({ self with m_bStartMonitoring := false },
          [⟨"monitoring value should be in range 5-99", false⟩])
      else
        ({ self with m_HigherLimit := percent }, [])
    else
      ({ self with m_bStartMonitoring := false },
        [⟨"Invalid param: " ++ param ++ kAppHelpText, false⟩])

/-- The body of the loop of `startBatteryMonitoring` (lines 116-120) run once
for every element of `ticks`, the successive results of the power status
call. -/
def monitorLoop (self : CBatteryNotifier) :
    List (Option SYSTEM_POWER_STATUS) → CBatteryNotifier × List Notification
  | [] => (self, [])
  | status :: rest =>
    let r := monitorHigherLimit self status
    let r2 := monitorLoop r.1 rest
    (r2.1, r.2 ++ r2.2)

/-- The text of the message box of line 115. -/
def startedText (m_HigherLimit : Nat) : String :=
  "Battery Monitoring started for " ++ to_tstring m_HigherLimit ++ " %"

/-- The member function `startBatteryMonitoring` (lines 111-121), on the first
`ticks.length` iterations of its loop. -/
def startBatteryMonitoring (self : CBatteryNotifier) (ticks : List (Option SYSTEM_POWER_STATUS)) :
    CBatteryNotifier × List Notification :=
  if !self.m_bStartMonitoring then
    (self, [])
  else
    let self1 : CBatteryNotifier :=
      { self with m_HigherLimit :=
          if self.m_HigherLimit = 0 then kDefaultMaxBatteryLimit else self.m_HigherLimit }
    let r := monitorLoop self1 ticks
    (r.1, ⟨startedText self1.m_HigherLimit, false⟩ :: r.2)

/-- The object after each of the first iterations of the loop of
`startBatteryMonitoring`, with the `notifyUser` calls of that iteration. -/
def monitorTrace (self : CBatteryNotifier) :
    List (Option SYSTEM_POWER_STATUS) → List (CBatteryNotifier × List Notification)
  | [] => []
  | status :: rest =>
    let r := monitorHigherLimit self status
    r :: monitorTrace r.1 rest


/-! ## The threshold monitor as the design document words it (section 4.1) -/

/-- The sample of the design document: `charging` and `batteryPercent`. -/
structure PowerSample where
  charging : Bool
  batteryPercent : Nat
  deriving DecidableEq, Repr

/-- The decision of the design document: stay silent, or notify with one of
the two messages. -/
inductive NotificationDecision where
  | silent
  | firstCrossing (upperLimit : Nat)
  | reNotify (batteryPercent upperLimit : Nat)
  deriving DecidableEq, Repr

/-- Rules 1 to 4 of section 4.1 in their priority order; the result is the
decision and the next `pendingHighLimit`. -/
def specStep (upperLimit pendingHighLimit : Nat) (s : PowerSample) :
    NotificationDecision × Nat :=
  if s.charging = true ∧ pendingHighLimit = 0 ∧ s.batteryPercent ≥ upperLimit then
    (NotificationDecision.firstCrossing upperLimit, s.batteryPercent)
  else if pendingHighLimit > s.batteryPercent ∧ upperLimit > s.batteryPercent then
    (NotificationDecision.silent, 0)
  else if s.charging = true ∧ pendingHighLimit > 0 ∧ pendingHighLimit < s.batteryPercent then
    (NotificationDecision.reNotify s.batteryPercent upperLimit, s.batteryPercent)
  else
    (NotificationDecision.silent, pendingHighLimit)

/-- The sample the design document sees in a successfully read power status:
charging means the AC line status is 1 (online). -/
def sampleOf (powerStatus : SYSTEM_POWER_STATUS) : PowerSample :=
  ⟨decide (powerStatus.ACLineStatus = 1), powerStatus.BatteryLifePercent⟩

/-- The `notifyUser` calls that carry out a decision: the message box of line
169 or of line 179, with the beep. -/
def notifications : NotificationDecision → List Notification
  | NotificationDecision.silent => []
  | NotificationDecision.firstCrossing upperLimit => [⟨firstCrossingText upperLimit, true⟩]
  | NotificationDecision.reNotify batteryPercent upperLimit =>
    [⟨reNotifyText (batteryPercent : Int) upperLimit, true⟩]

/-! ## Observations on a run of the loop -/

/-- The percentages of the samples at which `monitorHigherLimit` called
`notifyUser`, in a run of the loop over successfully read samples. -/
def notifiedLevels (self : CBatteryNotifier) : List SYSTEM_POWER_STATUS → List Nat
  | [] => []
  | s :: rest =>
    let r := monitorHigherLimit self (some s)
    if r.2.isEmpty then notifiedLevels r.1 rest
    else s.BatteryLifePercent :: notifiedLevels r.1 rest

/-- Whether no tick of the run is a reset to idle, that is, no tick takes
`m_NextHighLimit` from a positive value to 0. -/
def resetFree (self : CBatteryNotifier) : List SYSTEM_POWER_STATUS → Bool
  | [] => true
  | s :: rest =>
    let r := monitorHigherLimit self (some s)
    (decide (self.m_NextHighLimit = 0) || decide (r.1.m_NextHighLimit ≠ 0))
      && resetFree r.1 rest

/-! ## The rules of section 4.1 one by one -/

/-- The three rules of section 4.1 that notify or change the state. -/
inductive Rule where
  | firstCrossing
  | reset
  | reNotify
  deriving DecidableEq, Repr

/-- The guard of a rule as section 4.1 words it, the reset without its
"not rule 1". -/
def ruleGuard (upperLimit pendingHighLimit : Nat) (s : PowerSample) : Rule → Bool
  | Rule.firstCrossing =>
    s.charging && decide (pendingHighLimit = 0) && decide (s.batteryPercent ≥ upperLimit)
  | Rule.reset =>
    decide (pendingHighLimit > s.batteryPercent) && decide (upperLimit > s.batteryPercent)
  | Rule.reNotify =>
    s.charging && decide (pendingHighLimit > 0) && decide (pendingHighLimit < s.batteryPercent)

/-- The decision and the next `pendingHighLimit` of a rule that fires. -/
def ruleEffect (upperLimit : Nat) (s : PowerSample) : Rule → NotificationDecision × Nat
  | Rule.firstCrossing => (NotificationDecision.firstCrossing upperLimit, s.batteryPercent)
  | Rule.reset => (NotificationDecision.silent, 0)
  | Rule.reNotify =>
    (NotificationDecision.reNotify s.batteryPercent upperLimit, s.batteryPercent)

/-- The monitor step that tries the rules in the given priority order: the
first rule whose guard holds fires; when none does, nothing is notified and
the state is unchanged (rule 4). -/
def specStepInOrder (upperLimit pendingHighLimit : Nat) (s : PowerSample) :
    List Rule → NotificationDecision × Nat
  | [] => (NotificationDecision.silent, pendingHighLimit)
  | r :: rest =>
    if ruleGuard upperLimit pendingHighLimit s r = true then ruleEffect upperLimit s r
    else specStepInOrder upperLimit pendingHighLimit s rest

/-! ## Conversions on the range of a battery percentage -/

theorem byteVal_of_lt {b : Nat} (h : b < 256) : byteVal b = b := by
  unfold byteVal
  omega

theorem toChar_of_le {b : Nat} (h : b ≤ 127) : toChar b = (b : Int) := by
  unfold toChar byteVal
  have h1 : b % 256 = b := by omega
  rw [h1, if_pos (by omega)]

theorem toUnsigned_natCast {b : Nat} (h : b ≤ 127) : toUnsigned (b : Int) = b := by
  unfold toUnsigned
  omega

theorem toUnsigned_toChar {b : Nat} (h : b ≤ 127) : toUnsigned (toChar b) = b := by
  rw [toChar_of_le h, toUnsigned_natCast h]

theorem one_eq_toChar_iff {b : Nat} (h : b < 256) : 1 = toChar b ↔ b = 1 := by
  unfold toChar byteVal
  have h1 : b % 256 = b := by omega
  rw [h1]
  split <;> omega

/-- On a percentage below 128 the function `monitorHigherLimit` compares plain
numbers. -/
theorem monitorHigherLimit_some (self : CBatteryNotifier) (ac p : Nat) (hp : p ≤ 127) :
    monitorHigherLimit self (some ⟨ac, p⟩) =
      if 1 = toChar ac ∧ 0 = self.m_NextHighLimit ∧ self.m_HigherLimit ≤ p then
        ({ self with m_NextHighLimit := p }, [⟨firstCrossingText self.m_HigherLimit, true⟩])
      else if self.m_NextHighLimit > p ∧ self.m_HigherLimit > p then
        ({ self with m_NextHighLimit := 0 }, [])
      else if 1 = toChar ac ∧ 0 < self.m_NextHighLimit ∧ self.m_NextHighLimit < p then
        ({ self with m_NextHighLimit := p }, [⟨reNotifyText (p : Int) self.m_HigherLimit, true⟩])
      else
        (self, []) := by
  have hb : byteVal p = p := byteVal_of_lt (by omega)
  simp only [monitorHigherLimit, toChar_of_le hp, toUnsigned_natCast hp, hb]
  by_cases h : 1 = toChar ac ∧ 0 = self.m_NextHighLimit ∧ self.m_HigherLimit ≤ p
  · rw [if_pos h, if_pos h, if_pos h.2.2]
  · rw [if_neg h, if_neg h]

/-! ## The monitor step against the rules of the design document -/

/-- C1: for every object, every upper limit and every successfully read sample
whose percentage is in [0,100], one call of `monitorHigherLimit` makes exactly
the `notifyUser` calls and reaches exactly the next `m_NextHighLimit` that
rules 1 to 4 of the design document give in their priority order, and leaves
the other members alone; on that range the `(char)` casts and the unsigned
comparisons are plain number comparisons, and the AC-line test is the
charging flag. -/
theorem monitorHigherLimit_refines_specStep (self : CBatteryNotifier)
    (powerStatus : SYSTEM_POWER_STATUS) (hac : powerStatus.ACLineStatus < 256)
    (hp : powerStatus.BatteryLifePercent ≤ 100) :
    monitorHigherLimit self (some powerStatus) =
        ({ self with
            m_NextHighLimit :=
              (specStep self.m_HigherLimit self.m_NextHighLimit (sampleOf powerStatus)).2 },
          notifications
            (specStep self.m_HigherLimit self.m_NextHighLimit (sampleOf powerStatus)).1)
      ∧ toUnsigned (toChar powerStatus.BatteryLifePercent) = powerStatus.BatteryLifePercent
      ∧ (1 = toChar powerStatus.ACLineStatus ↔ (sampleOf powerStatus).charging = true) := by
  obtain ⟨ac, p⟩ := powerStatus
  simp only at hac hp
  have hp7 : p ≤ 127 := by omega
  have hc : 1 = toChar ac ↔ ac = 1 := one_eq_toChar_iff hac
  refine ⟨?_, toUnsigned_toChar hp7, ?_⟩
  · rw [monitorHigherLimit_some self ac p hp7]
    simp only [specStep, sampleOf, hc, decide_eq_true_eq]
    by_cases h1 : ac = 1 ∧ 0 = self.m_NextHighLimit ∧ self.m_HigherLimit ≤ p
    · have h1s : ac = 1 ∧ self.m_NextHighLimit = 0 ∧ p ≥ self.m_HigherLimit :=
        ⟨h1.1, h1.2.1.symm, h1.2.2⟩
      rw [if_pos h1, if_pos h1s]
      rfl
    · have h1s : ¬ (ac = 1 ∧ self.m_NextHighLimit = 0 ∧ p ≥ self.m_HigherLimit) :=
        fun h => h1 ⟨h.1, h.2.1.symm, h.2.2⟩
      rw [if_neg h1, if_neg h1s]
      by_cases h2 : self.m_NextHighLimit > p ∧ self.m_HigherLimit > p
      · rw [if_pos h2, if_pos h2]
        rfl
      · rw [if_neg h2, if_neg h2]
        by_cases h3 : ac = 1 ∧ 0 < self.m_NextHighLimit ∧ self.m_NextHighLimit < p
        · have h3s : ac = 1 ∧ self.m_NextHighLimit > 0 ∧ self.m_NextHighLimit < p := h3
          rw [if_pos h3, if_pos h3s]
          rfl
        · have h3s : ¬ (ac = 1 ∧ self.m_NextHighLimit > 0 ∧ self.m_NextHighLimit < p) := h3
          rw [if_neg h3, if_neg h3s]
          rfl
  · simp only [sampleOf, hc, decide_eq_true_eq]

/-- C1 at a concrete input: armed at 90 with limit 90, a charging sample at 95
re-notifies and arms at 95. -/
theorem monitorHigherLimit_refines_specStep_witness :
    ((1 : Nat) < 256 ∧ (95 : Nat) ≤ 100) ∧
      (monitorHigherLimit ⟨true, 90, 90⟩ (some ⟨1, 95⟩) =
        ({ (⟨true, 90, 90⟩ : CBatteryNotifier) with
            m_NextHighLimit := (specStep 90 90 (sampleOf ⟨1, 95⟩)).2 },
          notifications (specStep 90 90 (sampleOf ⟨1, 95⟩)).1)
      ∧ toUnsigned (toChar 95) = 95
      ∧ (1 = toChar 1 ↔ (sampleOf ⟨1, 95⟩).charging = true)) :=
  ⟨by decide, monitorHigherLimit_refines_specStep ⟨true, 90, 90⟩ ⟨1, 95⟩ (by decide) (by decide)⟩

/-- C2: on a sample that is not charging (percentage in [0,100]) the function
`monitorHigherLimit` makes no `notifyUser` call and leaves `m_NextHighLimit`
at its old value or at 0; an idle object (`m_NextHighLimit = 0`) stays idle. -/
theorem not_charging_never_notifies (self : CBatteryNotifier)
    (powerStatus : SYSTEM_POWER_STATUS) (hac : powerStatus.ACLineStatus < 256)
    (hoff : powerStatus.ACLineStatus ≠ 1) (hp : powerStatus.BatteryLifePercent ≤ 100) :
    (monitorHigherLimit self (some powerStatus)).2 = []
      ∧ ((monitorHigherLimit self (some powerStatus)).1.m_NextHighLimit = self.m_NextHighLimit
          ∨ (monitorHigherLimit self (some powerStatus)).1.m_NextHighLimit = 0)
      ∧ (self.m_NextHighLimit = 0 →
          (monitorHigherLimit self (some powerStatus)).1.m_NextHighLimit = 0) := by
  obtain ⟨ac, p⟩ := powerStatus
  simp only at hac hoff hp
  have hc : ¬ (1 = toChar ac) := fun h => hoff ((one_eq_toChar_iff hac).1 h)
  rw [monitorHigherLimit_some self ac p (by omega)]
  simp only [hc, false_and, if_false]
  by_cases h2 : self.m_NextHighLimit > p ∧ self.m_HigherLimit > p
  · simp [if_pos h2]
  · rw [if_neg h2]
    refine ⟨rfl, Or.inl rfl, fun h => h⟩

/-- C2 at a concrete input: armed at 95 with limit 90, a sample at 85 on
battery power resets without a notification. -/
theorem not_charging_never_notifies_witness :
    ((0 : Nat) < 256 ∧ (0 : Nat) ≠ 1 ∧ (85 : Nat) ≤ 100) ∧
      ((monitorHigherLimit ⟨true, 90, 95⟩ (some ⟨0, 85⟩)).2 = []
      ∧ ((monitorHigherLimit ⟨true, 90, 95⟩ (some ⟨0, 85⟩)).1.m_NextHighLimit
            = (⟨true, 90, 95⟩ : CBatteryNotifier).m_NextHighLimit
          ∨ (monitorHigherLimit ⟨true, 90, 95⟩ (some ⟨0, 85⟩)).1.m_NextHighLimit = 0)
      ∧ ((⟨true, 90, 95⟩ : CBatteryNotifier).m_NextHighLimit = 0 →
          (monitorHigherLimit ⟨true, 90, 95⟩ (some ⟨0, 85⟩)).1.m_NextHighLimit = 0)) :=
  ⟨by decide,
    not_charging_never_notifies ⟨true, 90, 95⟩ ⟨0, 85⟩ (by decide) (by decide) (by decide)⟩

/-! ## Threshold validation in `processCommandLine` -/

/-- C3: the code at the arguments "4" and "100", which the usage text
`<5-99>` and the message of line 94 put outside the accepted range: the
condition of line 93 is false for both, no message is shown, monitoring stays
enabled and the value is stored in `m_HigherLimit`; "5" and "99" are stored
the same way. -/
theorem processCommandLine_accepts_out_of_range :
    processCommandLine instance0 2 ["BatteryNotifier.exe", "4"]
        = ({ instance0 with m_HigherLimit := 4 }, [])
      ∧ processCommandLine instance0 2 ["BatteryNotifier.exe", "100"]
        = ({ instance0 with m_HigherLimit := 100 }, [])
      ∧ processCommandLine instance0 2 ["BatteryNotifier.exe", "5"]
        = ({ instance0 with m_HigherLimit := 5 }, [])
      ∧ processCommandLine instance0 2 ["BatteryNotifier.exe", "99"]
        = ({ instance0 with m_HigherLimit := 99 }, [])
      ∧ (processCommandLine instance0 2 ["BatteryNotifier.exe", "4"]).1.m_bStartMonitoring = true
      ∧ (processCommandLine instance0 2 ["BatteryNotifier.exe", "100"]).1.m_bStartMonitoring
          = true := by
  decide

/-! ## Sequences of ticks -/

/-- A tick of an armed object at its own level changes nothing. -/
theorem monitorHigherLimit_at_level (b : Bool) (upperLimit ac p : Nat) (hp : p ≤ 100)
    (hpos : 0 < p) :
    monitorHigherLimit ⟨b, upperLimit, p⟩ (some ⟨ac, p⟩) = (⟨b, upperLimit, p⟩, []) := by
  rw [monitorHigherLimit_some _ ac p (by omega)]
  have h1 : ¬ (1 = toChar ac ∧ 0 = p ∧ upperLimit ≤ p) := fun h => by omega
  have h2 : ¬ (p > p ∧ upperLimit > p) := fun h => by omega
  have h3 : ¬ (1 = toChar ac ∧ 0 < p ∧ p < p) := fun h => by omega
  rw [if_neg h1, if_neg h2, if_neg h3]

/-- Repeating the sample of an armed object at its own level changes nothing
and notifies nobody. -/
theorem monitorLoop_at_level (b : Bool) (upperLimit ac p : Nat) (hp : p ≤ 100) (hpos : 0 < p)
    (n : Nat) :
    monitorLoop ⟨b, upperLimit, p⟩ (List.replicate n (some ⟨ac, p⟩))
      = (⟨b, upperLimit, p⟩, []) := by
  induction n with
  | zero => rfl
  | succ n ih =>
    simp only [List.replicate_succ, monitorLoop, monitorHigherLimit_at_level b upperLimit ac p hp hpos,
      ih, List.append_nil]

/-- The trace of an armed object fed its own level again and again. -/
theorem monitorTrace_at_level (b : Bool) (upperLimit ac p : Nat) (hp : p ≤ 100) (hpos : 0 < p)
    (n : Nat) :
    monitorTrace ⟨b, upperLimit, p⟩ (List.replicate n (some ⟨ac, p⟩))
      = List.replicate n (⟨b, upperLimit, p⟩, []) := by
  induction n with
  | zero => rfl
  | succ n ih =>
    simp only [List.replicate_succ, monitorTrace, monitorHigherLimit_at_level b upperLimit ac p hp hpos,
      ih]

/-- The first crossing: an idle object on a charging sample at or above the
limit. -/
theorem monitorHigherLimit_first_crossing (b : Bool) (upperLimit p : Nat) (hlo : upperLimit ≤ p)
    (hhi : p ≤ 100) :
    monitorHigherLimit ⟨b, upperLimit, 0⟩ (some ⟨1, p⟩)
      = (⟨b, upperLimit, p⟩, [⟨firstCrossingText upperLimit, true⟩]) := by
  rw [monitorHigherLimit_some _ 1 p (by omega)]
  have h1 : 1 = toChar 1 ∧ 0 = 0 ∧ upperLimit ≤ p := ⟨by decide, rfl, hlo⟩
  rw [if_pos h1]

/-- C4: with an upper limit of at least 1 and a level `p` between the limit
and 100, an idle object fed the charging sample at `p` for `n ≥ 1` ticks in a
row notifies on the first tick (the first-crossing message), on no later
tick, is armed at `p` after every tick, and has made exactly one `notifyUser`
call in total. -/
theorem constant_level_notifies_once (b : Bool) (upperLimit p n : Nat) (hu : 1 ≤ upperLimit)
    (hlo : upperLimit ≤ p) (hhi : p ≤ 100) (hn : 1 ≤ n) :
    monitorTrace ⟨b, upperLimit, 0⟩ (List.replicate n (some ⟨1, p⟩))
        = (⟨b, upperLimit, p⟩, [⟨firstCrossingText upperLimit, true⟩])
            :: List.replicate (n - 1) (⟨b, upperLimit, p⟩, [])
      ∧ monitorLoop ⟨b, upperLimit, 0⟩ (List.replicate n (some ⟨1, p⟩))
        = (⟨b, upperLimit, p⟩, [⟨firstCrossingText upperLimit, true⟩]) := by
  obtain ⟨m, rfl⟩ : ∃ m, n = m + 1 := ⟨n - 1, by omega⟩
  have hpos : 0 < p := by omega
  constructor
  · simp only [List.replicate_succ, monitorTrace, monitorHigherLimit_first_crossing b upperLimit p hlo hhi,
      monitorTrace_at_level b upperLimit 1 p hhi hpos, Nat.add_sub_cancel]
  · simp only [List.replicate_succ, monitorLoop, monitorHigherLimit_first_crossing b upperLimit p hlo hhi,
      monitorLoop_at_level b upperLimit 1 p hhi hpos, List.append_nil]

/-- C4 at a concrete input: limit 90, level 92, three ticks. -/
theorem constant_level_notifies_once_witness :
    ((1 : Nat) ≤ 90 ∧ (90 : Nat) ≤ 92 ∧ (92 : Nat) ≤ 100 ∧ (1 : Nat) ≤ 3) ∧
      (monitorTrace ⟨true, 90, 0⟩ (List.replicate 3 (some ⟨1, 92⟩))
        = (⟨true, 90, 92⟩, [⟨firstCrossingText 90, true⟩])
            :: List.replicate (3 - 1) (⟨true, 90, 92⟩, [])
      ∧ monitorLoop ⟨true, 90, 0⟩ (List.replicate 3 (some ⟨1, 92⟩))
        = (⟨true, 90, 92⟩, [⟨firstCrossingText 90, true⟩])) :=
  ⟨by decide,
    constant_level_notifies_once true 90 92 3 (by decide) (by decide) (by decide) (by decide)⟩

/-- C5: from an object armed at `L ≥ 1` with `L + 2 ≤ 100`, whatever the upper
limit, the charging sample at `L + 1` makes one `notifyUser` call (the
re-notify message) and sets `m_NextHighLimit` to `L + 1`, and the charging
sample at `L + 2` right after makes another and sets it to `L + 2`. -/
theorem monotonic_rearm (b : Bool) (upperLimit L : Nat) (hL : 1 ≤ L) (hL2 : L + 2 ≤ 100) :
    monitorHigherLimit ⟨b, upperLimit, L⟩ (some ⟨1, L + 1⟩)
        = (⟨b, upperLimit, L + 1⟩, [⟨reNotifyText ((L + 1 : Nat) : Int) upperLimit, true⟩])
      ∧ monitorHigherLimit
          (monitorHigherLimit ⟨b, upperLimit, L⟩ (some ⟨1, L + 1⟩)).1 (some ⟨1, L + 2⟩)
        = (⟨b, upperLimit, L + 2⟩, [⟨reNotifyText ((L + 2 : Nat) : Int) upperLimit, true⟩]) := by
  have step : ∀ K : Nat, 1 ≤ K → K + 1 ≤ 100 →
      monitorHigherLimit ⟨b, upperLimit, K⟩ (some ⟨1, K + 1⟩)
        = (⟨b, upperLimit, K + 1⟩, [⟨reNotifyText ((K + 1 : Nat) : Int) upperLimit, true⟩]) := by
    intro K hK hK1
    rw [monitorHigherLimit_some _ 1 (K + 1) (by omega)]
    have h1 : ¬ (1 = toChar 1 ∧ 0 = K ∧ upperLimit ≤ K + 1) := fun h => by omega
    have h2 : ¬ (K > K + 1 ∧ upperLimit > K + 1) := fun h => by omega
    have h3 : 1 = toChar 1 ∧ 0 < K ∧ K < K + 1 := ⟨by decide, by omega, by omega⟩
    rw [if_neg h1, if_neg h2, if_pos h3]
  refine ⟨step L hL (by omega), ?_⟩
  rw [step L hL (by omega)]
  exact step (L + 1) (by omega) (by omega)

/-- C5 at a concrete input: armed at 93 with limit 90, samples 94 and 95. -/
theorem monotonic_rearm_witness :
    ((1 : Nat) ≤ 93 ∧ (93 : Nat) + 2 ≤ 100) ∧
      (monitorHigherLimit ⟨true, 90, 93⟩ (some ⟨1, 93 + 1⟩)
        = (⟨true, 90, 93 + 1⟩, [⟨reNotifyText ((93 + 1 : Nat) : Int) 90, true⟩])
      ∧ monitorHigherLimit
          (monitorHigherLimit ⟨true, 90, 93⟩ (some ⟨1, 93 + 1⟩)).1 (some ⟨1, 93 + 2⟩)
        = (⟨true, 90, 93 + 2⟩, [⟨reNotifyText ((93 + 2 : Nat) : Int) 90, true⟩])) :=
  ⟨by decide, monotonic_rearm true 90 93 (by decide) (by decide)⟩

/-! ## Reset -/

/-- C6, as stated, fails at the threshold itself: armed at 95 with limit 90,
the charging sample at 90 satisfies `90 ≤ 90` and `90 < 95`, yet the object
stays armed at 95 (line 175 asks for `m_HigherLimit > percent`). -/
theorem reset_at_threshold_counterexample :
    ((0 : Nat) < 95 ∧ (90 : Nat) ≤ 90 ∧ (90 : Nat) < 95 ∧ (90 : Nat) ≤ 100)
      ∧ monitorHigherLimit ⟨true, 90, 95⟩ (some ⟨1, 90⟩) = (⟨true, 90, 95⟩, [])
      ∧ (monitorHigherLimit ⟨true, 90, 95⟩ (some ⟨1, 90⟩)).1.m_NextHighLimit ≠ 0 := by
  decide

/-- C6, amended: from an object armed at `L > 0`, every sample (charging or
not, percentage in [0,100]) with `batteryPercent < upperLimit` and
`batteryPercent < L` moves the object to idle without a `notifyUser` call, and
a following charging sample at `batteryPercent ≥ upperLimit` makes the
first-crossing call again and arms at that level. -/
theorem reset_then_first_crossing (b : Bool) (upperLimit L ac p q : Nat) (hL : 0 < L)
    (hp : p ≤ 100) (hpu : p < upperLimit) (hpL : p < L) (hq : upperLimit ≤ q) (hq100 : q ≤ 100) :
    monitorHigherLimit ⟨b, upperLimit, L⟩ (some ⟨ac, p⟩) = (⟨b, upperLimit, 0⟩, [])
      ∧ monitorHigherLimit (monitorHigherLimit ⟨b, upperLimit, L⟩ (some ⟨ac, p⟩)).1 (some ⟨1, q⟩)
        = (⟨b, upperLimit, q⟩, [⟨firstCrossingText upperLimit, true⟩]) := by
  have hreset : monitorHigherLimit ⟨b, upperLimit, L⟩ (some ⟨ac, p⟩)
      = (⟨b, upperLimit, 0⟩, []) := by
    rw [monitorHigherLimit_some _ ac p (by omega)]
    have h1 : ¬ (1 = toChar ac ∧ 0 = L ∧ upperLimit ≤ p) := fun h => by omega
    have h2 : L > p ∧ upperLimit > p := ⟨hpL, hpu⟩
    rw [if_neg h1, if_pos h2]
  refine ⟨hreset, ?_⟩
  rw [hreset]
  exact monitorHigherLimit_first_crossing b upperLimit q hq hq100

/-- C6, amended, at a concrete input: armed at 95 with limit 90, the sample at
85 resets and the charging sample at 91 fires the first crossing again. -/
theorem reset_then_first_crossing_witness :
    ((0 : Nat) < 95 ∧ (85 : Nat) ≤ 100 ∧ (85 : Nat) < 90 ∧ (85 : Nat) < 95 ∧ (90 : Nat) ≤ 91
        ∧ (91 : Nat) ≤ 100) ∧
      (monitorHigherLimit ⟨true, 90, 95⟩ (some ⟨0, 85⟩) = (⟨true, 90, 0⟩, [])
      ∧ monitorHigherLimit (monitorHigherLimit ⟨true, 90, 95⟩ (some ⟨0, 85⟩)).1 (some ⟨1, 91⟩)
        = (⟨true, 90, 91⟩, [⟨firstCrossingText 90, true⟩])) :=
  ⟨by decide,
    reset_then_first_crossing true 90 95 0 85 91 (by decide) (by decide) (by decide) (by decide)
      (by decide) (by decide)⟩

/-! ## The invariant of `m_NextHighLimit` -/

/-- The members that `monitorHigherLimit` never writes. -/
theorem monitorHigherLimit_frame (self : CBatteryNotifier) (status : Option SYSTEM_POWER_STATUS) :
    (monitorHigherLimit self status).1.m_HigherLimit = self.m_HigherLimit
      ∧ (monitorHigherLimit self status).1.m_bStartMonitoring = self.m_bStartMonitoring := by
  cases status with
  | none => exact ⟨rfl, rfl⟩
  | some powerStatus =>
    simp only [monitorHigherLimit]
    split_ifs <;> exact ⟨rfl, rfl⟩

/-- The members that the loop never writes. -/
theorem monitorLoop_frame (ticks : List (Option SYSTEM_POWER_STATUS)) (self : CBatteryNotifier) :
    (monitorLoop self ticks).1.m_HigherLimit = self.m_HigherLimit
      ∧ (monitorLoop self ticks).1.m_bStartMonitoring = self.m_bStartMonitoring := by
  induction ticks generalizing self with
  | nil => exact ⟨rfl, rfl⟩
  | cons status rest ih =>
    simp only [monitorLoop]
    have h := monitorHigherLimit_frame self status
    have h2 := ih (monitorHigherLimit self status).1
    exact ⟨h2.1.trans h.1, h2.2.trans h.2⟩

/-- One tick keeps the invariant: `m_NextHighLimit` is 0, or at least the upper
limit and the percentage of a charging sample seen so far. -/
theorem monitorHigherLimit_keeps_invariant (self : CBatteryNotifier)
    (seen : List SYSTEM_POWER_STATUS) (s : SYSTEM_POWER_STATUS) (hac : s.ACLineStatus < 256)
    (hp : s.BatteryLifePercent ≤ 100)
    (hinv : self.m_NextHighLimit = 0 ∨ (self.m_HigherLimit ≤ self.m_NextHighLimit
      ∧ ∃ t ∈ seen, t.ACLineStatus = 1 ∧ t.BatteryLifePercent = self.m_NextHighLimit)) :
    (monitorHigherLimit self (some s)).1.m_NextHighLimit = 0
      ∨ (self.m_HigherLimit ≤ (monitorHigherLimit self (some s)).1.m_NextHighLimit
        ∧ ∃ t ∈ seen ++ [s], t.ACLineStatus = 1
            ∧ t.BatteryLifePercent = (monitorHigherLimit self (some s)).1.m_NextHighLimit) := by
  obtain ⟨ac, p⟩ := s
  simp only at hac hp
  have hc : 1 = toChar ac ↔ ac = 1 := one_eq_toChar_iff hac
  rw [monitorHigherLimit_some self ac p (by omega)]
  by_cases h1 : 1 = toChar ac ∧ 0 = self.m_NextHighLimit ∧ self.m_HigherLimit ≤ p
  · rw [if_pos h1]
    exact Or.inr ⟨h1.2.2, ⟨ac, p⟩, by simp, hc.1 h1.1, rfl⟩
  · rw [if_neg h1]
    by_cases h2 : self.m_NextHighLimit > p ∧ self.m_HigherLimit > p
    · rw [if_pos h2]
      exact Or.inl rfl
    · rw [if_neg h2]
      by_cases h3 : 1 = toChar ac ∧ 0 < self.m_NextHighLimit ∧ self.m_NextHighLimit < p
      · rw [if_pos h3]
        rcases hinv with h0 | ⟨hge, _⟩
        · omega
        · exact Or.inr ⟨by simp only; omega, ⟨ac, p⟩, by simp, hc.1 h3.1, rfl⟩
      · rw [if_neg h3]
        rcases hinv with h0 | ⟨hge, t, ht, htac, htp⟩
        · exact Or.inl h0
        · exact Or.inr ⟨hge, t, List.mem_append_left _ ht, htac, htp⟩

/-- The loop keeps the invariant over the samples it has been fed. -/
theorem monitorLoop_keeps_invariant (samples : List SYSTEM_POWER_STATUS) :
    ∀ (self : CBatteryNotifier) (seen : List SYSTEM_POWER_STATUS),
      (∀ s ∈ samples, s.ACLineStatus < 256 ∧ s.BatteryLifePercent ≤ 100) →
      (self.m_NextHighLimit = 0 ∨ (self.m_HigherLimit ≤ self.m_NextHighLimit
        ∧ ∃ t ∈ seen, t.ACLineStatus = 1 ∧ t.BatteryLifePercent = self.m_NextHighLimit)) →
      ((monitorLoop self (samples.map some)).1.m_NextHighLimit = 0
        ∨ (self.m_HigherLimit ≤ (monitorLoop self (samples.map some)).1.m_NextHighLimit
          ∧ ∃ t ∈ seen ++ samples, t.ACLineStatus = 1
              ∧ t.BatteryLifePercent = (monitorLoop self (samples.map some)).1.m_NextHighLimit)) := by
  induction samples with
  | nil =>
    intro self seen _ hinv
    simpa [monitorLoop] using hinv
  | cons s rest ih =>
    intro self seen hs hinv
    have hs0 := hs s (List.mem_cons_self s rest)
    have hstep := monitorHigherLimit_keeps_invariant self seen s hs0.1 hs0.2 hinv
    have hfr := (monitorHigherLimit_frame self (some s)).1
    rw [← hfr] at hstep
    have hrest := ih (monitorHigherLimit self (some s)).1 (seen ++ [s])
      (fun t ht => hs t (List.mem_cons_of_mem s ht)) hstep
    rw [hfr] at hrest
    simpa [monitorLoop] using hrest

/-- C7: with a fixed upper limit of at least 1, starting idle, after every
tick of every finite sequence of samples whose percentages are in [0,100] the
member `m_NextHighLimit` is 0 or is at least the upper limit and equals the
percentage of a charging sample among those fed so far (the current one
included). -/
theorem pending_limit_invariant (b : Bool) (upperLimit : Nat)
    (samples : List SYSTEM_POWER_STATUS) (_hu : 1 ≤ upperLimit)
    (hs : ∀ s ∈ samples, s.ACLineStatus < 256 ∧ s.BatteryLifePercent ≤ 100) (k : Nat) :
    (monitorLoop ⟨b, upperLimit, 0⟩ ((samples.take k).map some)).1.m_NextHighLimit = 0
      ∨ (upperLimit
            ≤ (monitorLoop ⟨b, upperLimit, 0⟩ ((samples.take k).map some)).1.m_NextHighLimit
        ∧ ∃ t ∈ samples.take k, t.ACLineStatus = 1
            ∧ t.BatteryLifePercent
              = (monitorLoop ⟨b, upperLimit, 0⟩ ((samples.take k).map some)).1.m_NextHighLimit) := by
  have h := monitorLoop_keeps_invariant (samples.take k) ⟨b, upperLimit, 0⟩ []
    (fun s hsk => hs s (List.mem_of_mem_take hsk)) (Or.inl rfl)
  simpa using h

/-- C7 at a concrete input: limit 90, samples 89 and 92 charging then 91 on
battery, after the second tick. -/
theorem pending_limit_invariant_witness :
    ((1 : Nat) ≤ 90
        ∧ ∀ s ∈ ([⟨1, 89⟩, ⟨1, 92⟩, ⟨0, 91⟩] : List SYSTEM_POWER_STATUS),
            s.ACLineStatus < 256 ∧ s.BatteryLifePercent ≤ 100) ∧
      ((monitorLoop ⟨true, 90, 0⟩
            ((([⟨1, 89⟩, ⟨1, 92⟩, ⟨0, 91⟩] : List SYSTEM_POWER_STATUS).take 2).map some)).1.m_NextHighLimit
          = 0
        ∨ (90 ≤ (monitorLoop ⟨true, 90, 0⟩
            ((([⟨1, 89⟩, ⟨1, 92⟩, ⟨0, 91⟩] : List SYSTEM_POWER_STATUS).take 2).map some)).1.m_NextHighLimit
          ∧ ∃ t ∈ ([⟨1, 89⟩, ⟨1, 92⟩, ⟨0, 91⟩] : List SYSTEM_POWER_STATUS).take 2,
              t.ACLineStatus = 1
              ∧ t.BatteryLifePercent = (monitorLoop ⟨true, 90, 0⟩
                  ((([⟨1, 89⟩, ⟨1, 92⟩, ⟨0, 91⟩] : List SYSTEM_POWER_STATUS).take 2).map
                    some)).1.m_NextHighLimit)) :=
  ⟨by decide,
    pending_limit_invariant true 90 [⟨1, 89⟩, ⟨1, 92⟩, ⟨0, 91⟩] (by decide) (by decide) 2⟩

/-- C8, as stated, fails on battery power: armed at 95 with limit 90, the
sample at 85 with the AC line offline leaves `m_NextHighLimit = 0` although
the sample is not charging (the reset of lines 175-177 does not look at the AC
line status). -/
theorem reset_while_not_charging_counterexample :
    (0 : Nat) < (⟨true, 90, 95⟩ : CBatteryNotifier).m_NextHighLimit
      ∧ (monitorHigherLimit ⟨true, 90, 95⟩ (some ⟨0, 85⟩)).1.m_NextHighLimit = 0
      ∧ ¬ ((sampleOf ⟨0, 85⟩).charging = true ∧ (sampleOf ⟨0, 85⟩).batteryPercent ≤ 90) := by
  decide

/-- C8, amended: for every object with `m_NextHighLimit > 0`, every upper limit
and every sample (percentage in [0,100], either charging value), if the tick
leaves `m_NextHighLimit = 0` then the percentage is below the upper limit
(hence at or below it) and below the old `m_NextHighLimit`. -/
theorem reset_only_below_threshold (self : CBatteryNotifier) (powerStatus : SYSTEM_POWER_STATUS)
    (hpos : 0 < self.m_NextHighLimit) (hp : powerStatus.BatteryLifePercent ≤ 100)
    (hz : (monitorHigherLimit self (some powerStatus)).1.m_NextHighLimit = 0) :
    powerStatus.BatteryLifePercent < self.m_HigherLimit
      ∧ powerStatus.BatteryLifePercent < self.m_NextHighLimit := by
  obtain ⟨ac, p⟩ := powerStatus
  simp only at hp
  show p < self.m_HigherLimit ∧ p < self.m_NextHighLimit
  rw [monitorHigherLimit_some self ac p (by omega)] at hz
  by_cases h1 : 1 = toChar ac ∧ 0 = self.m_NextHighLimit ∧ self.m_HigherLimit ≤ p
  · have h0 := h1.2.1
    omega
  · rw [if_neg h1] at hz
    by_cases h2 : self.m_NextHighLimit > p ∧ self.m_HigherLimit > p
    · exact ⟨h2.2, h2.1⟩
    · rw [if_neg h2] at hz
      by_cases h3 : 1 = toChar ac ∧ 0 < self.m_NextHighLimit ∧ self.m_NextHighLimit < p
      · rw [if_pos h3] at hz
        have hlt := h3.2.2
        simp only at hz
        omega
      · rw [if_neg h3] at hz
        simp only at hz
        omega

/-- C8, amended, at a concrete input: armed at 95 with limit 90, the sample at
85 on battery power. -/
theorem reset_only_below_threshold_witness :
    ((0 : Nat) < (⟨true, 90, 95⟩ : CBatteryNotifier).m_NextHighLimit
        ∧ (⟨0, 85⟩ : SYSTEM_POWER_STATUS).BatteryLifePercent ≤ 100
        ∧ (monitorHigherLimit ⟨true, 90, 95⟩ (some ⟨0, 85⟩)).1.m_NextHighLimit = 0) ∧
      ((⟨0, 85⟩ : SYSTEM_POWER_STATUS).BatteryLifePercent
          < (⟨true, 90, 95⟩ : CBatteryNotifier).m_HigherLimit
        ∧ (⟨0, 85⟩ : SYSTEM_POWER_STATUS).BatteryLifePercent
          < (⟨true, 90, 95⟩ : CBatteryNotifier).m_NextHighLimit) :=
  ⟨by decide,
    reset_only_below_threshold ⟨true, 90, 95⟩ ⟨0, 85⟩ (by decide) (by decide) (by decide)⟩

/-! ## The scenario of the design document -/

/-- C9: with upper limit 90 and an idle object, the charging samples 89, 90,
90, 95, 93, 85, 90 give, tick by tick, the objects idle, armed at 90, armed at
90, armed at 95, armed at 95, idle, armed at 90, and `notifyUser` is called on
the second, fourth and seventh tick only: with the first-crossing text naming
90% on the second and seventh, and with the re-notify text naming 95 and 90 on
the fourth. -/
theorem scenario_trace :
    monitorTrace ⟨true, 90, 0⟩
        [some ⟨1, 89⟩, some ⟨1, 90⟩, some ⟨1, 90⟩, some ⟨1, 95⟩, some ⟨1, 93⟩, some ⟨1, 85⟩,
          some ⟨1, 90⟩]
      = [(⟨true, 90, 0⟩, []),
          (⟨true, 90, 90⟩,
            [⟨"Please remove the charger....\nBattery percentage is >= 90%", true⟩]),
          (⟨true, 90, 90⟩, []),
          (⟨true, 90, 95⟩,
            [⟨"You have not removed the charger...Please remove it....\nBattery percentage is exceeding 95 % > 90%",
              true⟩]),
          (⟨true, 90, 95⟩, []),
          (⟨true, 90, 0⟩, []),
          (⟨true, 90, 90⟩,
            [⟨"Please remove the charger....\nBattery percentage is >= 90%", true⟩])] := by
  decide

/-! ## The default threshold -/

/-- The function `isNumeric` accepts exactly the non-empty strings of
digits. -/
theorem isNumeric_iff (str : String) :
    isNumeric str = true ↔ str.data ≠ [] ∧ ∀ c ∈ str.data, isdigit c = true := by
  unfold isNumeric
  rw [Bool.and_eq_true, Bool.not_eq_true', Option.isNone_iff_eq_none, List.find?_eq_none]
  constructor
  · rintro ⟨h1, h2⟩
    refine ⟨fun h => ?_, fun c hc => ?_⟩
    · rw [h] at h1
      exact Bool.noConfusion h1
    · have := h2 c hc
      simpa using this
  · rintro ⟨h1, h2⟩
    refine ⟨?_, fun c hc => by simp [h2 c hc]⟩
    cases hd : str.data with
    | nil => exact absurd hd h1
    | cons a l => rfl

/-- A stopped object: `startBatteryMonitoring` returns at line 113. -/
theorem startBatteryMonitoring_disabled (self : CBatteryNotifier)
    (ticks : List (Option SYSTEM_POWER_STATUS)) (h : self.m_bStartMonitoring = false) :
    startBatteryMonitoring self ticks = (self, []) := by
  simp [startBatteryMonitoring, h]

/-- C11: for every single argument that is "/?" or is not a non-empty string
of digits, `processCommandLine` makes exactly one `notifyUser` call, without
the beep (the help text, or "Invalid param: " with the argument and the help
text), sets `m_bStartMonitoring` to false and leaves `m_HigherLimit` and
`m_NextHighLimit` alone; `startBatteryMonitoring` on the resulting object then
returns at once, with no tick of the loop and no `notifyUser` call, whatever
the power status would have been. -/
theorem invalid_argument_disables_monitoring (self : CBatteryNotifier) (prog param : String)
    (ticks : List (Option SYSTEM_POWER_STATUS))
    (hbad : param = "/?" ∨ ¬ (param.data ≠ [] ∧ ∀ c ∈ param.data, isdigit c = true)) :
    processCommandLine self 2 [prog, param]
        = ({ self with m_bStartMonitoring := false },
            [⟨if param = "/?" then kAppHelpText else "Invalid param: " ++ param ++ kAppHelpText,
              false⟩])
      ∧ startBatteryMonitoring (processCommandLine self 2 [prog, param]).1 ticks
        = ({ self with m_bStartMonitoring := false }, []) := by
  have hpc : processCommandLine self 2 [prog, param]
      = ({ self with m_bStartMonitoring := false },
          [⟨if param = "/?" then kAppHelpText else "Invalid param: " ++ param ++ kAppHelpText,
            false⟩]) := by
    by_cases hq : param = "/?"
    · simp [processCommandLine, hq]
    · have hn : isNumeric param = false := by
        rcases hbad with h | h
        · exact absurd h hq
        · cases hnum : isNumeric param with
          | false => rfl
          | true => exact absurd ((isNumeric_iff param).1 hnum) h
      simp [processCommandLine, hq, hn]
  refine ⟨hpc, ?_⟩
  rw [hpc]
  exact startBatteryMonitoring_disabled _ ticks rfl

/-- C11 at a concrete input: the argument "9a" on the fresh object, with one
tick at which the charger is on at 95 percent. -/
theorem invalid_argument_disables_monitoring_witness :
    ("9a" = "/?" ∨ ¬ (("9a" : String).data ≠ [] ∧ ∀ c ∈ ("9a" : String).data, isdigit c = true))
      ∧ (processCommandLine instance0 2 ["BatteryNotifier.exe", "9a"]
          = ({ instance0 with m_bStartMonitoring := false },
              [⟨if "9a" = "/?" then kAppHelpText else "Invalid param: " ++ "9a" ++ kAppHelpText,
                false⟩])
        ∧ startBatteryMonitoring
            (processCommandLine instance0 2 ["BatteryNotifier.exe", "9a"]).1 [some ⟨1, 95⟩]
          = ({ instance0 with m_bStartMonitoring := false }, [])) :=
  ⟨by decide,
    invalid_argument_disables_monitoring instance0 "BatteryNotifier.exe" "9a" [some ⟨1, 95⟩]
      (by decide)⟩

/-! ## A failed power status call -/

/-- The loop over two runs of ticks, one after the other. -/
theorem monitorLoop_append (pre post : List (Option SYSTEM_POWER_STATUS)) :
    ∀ self : CBatteryNotifier,
      monitorLoop self (pre ++ post)
        = ((monitorLoop (monitorLoop self pre).1 post).1,
            (monitorLoop self pre).2 ++ (monitorLoop (monitorLoop self pre).1 post).2) := by
  induction pre with
  | nil =>
    intro self
    simp [monitorLoop]
  | cons status rest ih =>
    intro self
    rw [List.cons_append]
    simp only [monitorLoop]
    rw [ih]
    simp only [List.append_assoc]

/-- C12: on a tick at which the power status call fails, the function
`monitorHigherLimit` makes no `notifyUser` call and returns the object as it
was, whatever its members hold; so a failed tick anywhere in a run of the loop
leaves the final object and the `notifyUser` calls of the run as they are
without that tick. -/
theorem failed_status_tick_is_skipped (self : CBatteryNotifier)
    (pre post : List (Option SYSTEM_POWER_STATUS)) :
    monitorHigherLimit self none = (self, [])
      ∧ (monitorHigherLimit self none).1.m_NextHighLimit = self.m_NextHighLimit
      ∧ (monitorHigherLimit self none).1.m_HigherLimit = self.m_HigherLimit
      ∧ monitorLoop self (pre ++ none :: post) = monitorLoop self (pre ++ post) := by
  refine ⟨rfl, rfl, rfl, ?_⟩
  rw [monitorLoop_append pre (none :: post) self, monitorLoop_append pre post self]
  simp only [monitorLoop, monitorHigherLimit, List.nil_append]

/-! ## Silence at or below the armed level -/

/-- C13, as stated, fails on a percentage byte outside [0,100]: with limit 90
the charging tick on the byte 255 (the value the platform reports when there
is no battery) arms the idle object at 255; armed at `L = 255`, the same
sample has `batteryPercent = 255 ≤ L`, yet line 178 compares `L` with the
converted signed-char cast 4294967295 and the tick calls `notifyUser` again,
with the text naming -1. -/
theorem silent_at_armed_level_high_byte_counterexample :
    ((0 : Nat) < 255 ∧ (⟨1, 255⟩ : SYSTEM_POWER_STATUS).BatteryLifePercent ≤ 255)
      ∧ (monitorHigherLimit ⟨true, 90, 0⟩ (some ⟨1, 255⟩)).1 = ⟨true, 90, 255⟩
      ∧ toUnsigned (toChar 255) = 4294967295
      ∧ monitorHigherLimit ⟨true, 90, 255⟩ (some ⟨1, 255⟩)
          = (⟨true, 90, 255⟩,
              [⟨"You have not removed the charger...Please remove it....\nBattery percentage is exceeding -1 % > 90%",
                true⟩])
      ∧ (monitorHigherLimit ⟨true, 90, 255⟩ (some ⟨1, 255⟩)).2 ≠ [] := by
  decide

/-- C13, amended: for every upper limit, every object armed at `L > 0` and
every sample (either AC line status) whose percentage is in [0,100] and has
`batteryPercent ≤ L`, the tick makes no `notifyUser` call; when
`batteryPercent = L` the object is also left as it was, so the same sample fed
a second time makes no call either. -/
theorem silent_at_or_below_armed_level (b : Bool) (upperLimit L ac p : Nat) (hL : 0 < L)
    (hp : p ≤ 100) (hpL : p ≤ L) :
    (monitorHigherLimit ⟨b, upperLimit, L⟩ (some ⟨ac, p⟩)).2 = []
      ∧ (p = L →
          monitorHigherLimit ⟨b, upperLimit, L⟩ (some ⟨ac, p⟩) = (⟨b, upperLimit, L⟩, [])
          ∧ monitorHigherLimit (monitorHigherLimit ⟨b, upperLimit, L⟩ (some ⟨ac, p⟩)).1
              (some ⟨ac, p⟩) = (⟨b, upperLimit, L⟩, [])) := by
  constructor
  · rw [monitorHigherLimit_some _ ac p (by omega)]
    have h1 : ¬ (1 = toChar ac ∧ 0 = L ∧ upperLimit ≤ p) := fun h => by omega
    have h3 : ¬ (1 = toChar ac ∧ 0 < L ∧ L < p) := fun h => by omega
    rw [if_neg h1]
    by_cases h2 : L > p ∧ upperLimit > p
    · rw [if_pos h2]
    · rw [if_neg h2, if_neg h3]
  · intro hpl
    subst hpl
    have hstay := monitorHigherLimit_at_level b upperLimit ac p hp hL
    exact ⟨hstay, by rw [hstay]; exact hstay⟩

/-- C13, amended, at a concrete input: armed at 95 with limit 90, the sample
at 95 on AC power. -/
theorem silent_at_or_below_armed_level_witness :
    ((0 : Nat) < 95 ∧ (95 : Nat) ≤ 100 ∧ (95 : Nat) ≤ 95)
      ∧ ((monitorHigherLimit ⟨true, 90, 95⟩ (some ⟨1, 95⟩)).2 = []
        ∧ ((95 : Nat) = 95 →
            monitorHigherLimit ⟨true, 90, 95⟩ (some ⟨1, 95⟩) = (⟨true, 90, 95⟩, [])
            ∧ monitorHigherLimit (monitorHigherLimit ⟨true, 90, 95⟩ (some ⟨1, 95⟩)).1
                (some ⟨1, 95⟩) = (⟨true, 90, 95⟩, []))) :=
  ⟨by decide, silent_at_or_below_armed_level true 90 95 1 95 (by decide) (by decide) (by decide)⟩

/-! ## One notification per increase -/

/-- The two outcomes of a tick on a percentage in [0,100] with an upper limit
of at least 1: a `notifyUser` call, with `m_NextHighLimit` raised to the
percentage, or no call, with `m_NextHighLimit` kept or set to 0. -/
theorem monitorHigherLimit_outcomes (self : CBatteryNotifier) (ac p : Nat) (hp : p ≤ 100)
    (hu : 1 ≤ self.m_HigherLimit) :
    ((monitorHigherLimit self (some ⟨ac, p⟩)).2 ≠ []
        ∧ (monitorHigherLimit self (some ⟨ac, p⟩)).1.m_NextHighLimit = p
        ∧ self.m_NextHighLimit < p)
      ∨ ((monitorHigherLimit self (some ⟨ac, p⟩)).2 = []
        ∧ ((monitorHigherLimit self (some ⟨ac, p⟩)).1.m_NextHighLimit = self.m_NextHighLimit
          ∨ (monitorHigherLimit self (some ⟨ac, p⟩)).1.m_NextHighLimit = 0)) := by
  rw [monitorHigherLimit_some self ac p (by omega)]
  by_cases h1 : 1 = toChar ac ∧ 0 = self.m_NextHighLimit ∧ self.m_HigherLimit ≤ p
  · rw [if_pos h1]
    have h0 := h1.2.1
    have hge := h1.2.2
    exact Or.inl ⟨List.cons_ne_nil _ _, rfl, by omega⟩
  · rw [if_neg h1]
    by_cases h2 : self.m_NextHighLimit > p ∧ self.m_HigherLimit > p
    · rw [if_pos h2]
      exact Or.inr ⟨rfl, Or.inr rfl⟩
    · rw [if_neg h2]
      by_cases h3 : 1 = toChar ac ∧ 0 < self.m_NextHighLimit ∧ self.m_NextHighLimit < p
      · rw [if_pos h3]
        exact Or.inl ⟨List.cons_ne_nil _ _, rfl, h3.2.2⟩
      · rw [if_neg h3]
        exact Or.inr ⟨rfl, Or.inl rfl⟩

/-- In a run without a reset to idle the notified levels are above the
starting `m_NextHighLimit` and strictly increasing. -/
theorem notifiedLevels_increasing (samples : List SYSTEM_POWER_STATUS) :
    ∀ self : CBatteryNotifier, 1 ≤ self.m_HigherLimit →
      (∀ s ∈ samples, s.BatteryLifePercent ≤ 100) → resetFree self samples = true →
      (∀ x ∈ notifiedLevels self samples, self.m_NextHighLimit < x)
        ∧ (notifiedLevels self samples).Pairwise (fun x y => x < y) := by
  induction samples with
  | nil =>
    intro self _ _ _
    simp [notifiedLevels]
  | cons s rest ih =>
    intro self hu hs hfree
    obtain ⟨ac, p⟩ := s
    have hp : p ≤ 100 := hs ⟨ac, p⟩ (List.mem_cons_self _ _)
    have hfr := (monitorHigherLimit_frame self (some ⟨ac, p⟩)).1
    simp only [resetFree, Bool.and_eq_true, Bool.or_eq_true, decide_eq_true_eq] at hfree
    obtain ⟨hhere, hrest⟩ := hfree
    have hih := ih (monitorHigherLimit self (some ⟨ac, p⟩)).1 (by rw [hfr]; exact hu)
      (fun t ht => hs t (List.mem_cons_of_mem _ ht)) hrest
    rcases monitorHigherLimit_outcomes self ac p hp hu with ⟨hn, hnew, hlt⟩ | ⟨hn, hnew⟩
    · have hne : (monitorHigherLimit self (some ⟨ac, p⟩)).2.isEmpty = false := by
        cases hl : (monitorHigherLimit self (some ⟨ac, p⟩)).2 with
        | nil => exact absurd hl hn
        | cons a l => rfl
      simp only [notifiedLevels, hne, Bool.false_eq_true, if_false]
      rw [hnew] at hih
      refine ⟨fun x hx => ?_, List.pairwise_cons.2 ⟨hih.1, hih.2⟩⟩
      rcases List.mem_cons.1 hx with hx | hx
      · rw [hx]
        exact hlt
      · exact Nat.lt_trans hlt (hih.1 x hx)
    · have he : (monitorHigherLimit self (some ⟨ac, p⟩)).2.isEmpty = true := by
        rw [hn]
        rfl
      simp only [notifiedLevels, he, if_true]
      have hsame : (monitorHigherLimit self (some ⟨ac, p⟩)).1.m_NextHighLimit
          = self.m_NextHighLimit := by
        rcases hnew with h | h
        · exact h
        · rcases hhere with h0 | h0
          · rw [h, h0]
          · exact absurd h h0
      rw [hsame] at hih
      exact hih

/-- C14: for every object, every upper limit of at least 1 and every sample
with a percentage in [0,100], the tick calls `notifyUser` if and only if the
new `m_NextHighLimit` is strictly greater than the old one, and then the new
`m_NextHighLimit` is the sampled percentage; so in every run of ticks that
contains no reset to idle the notified levels are strictly increasing. -/
theorem notify_iff_pending_increases (self : CBatteryNotifier)
    (powerStatus : SYSTEM_POWER_STATUS) (samples : List SYSTEM_POWER_STATUS)
    (hu : 1 ≤ self.m_HigherLimit) (hp : powerStatus.BatteryLifePercent ≤ 100)
    (hs : ∀ s ∈ samples, s.BatteryLifePercent ≤ 100) :
    ((monitorHigherLimit self (some powerStatus)).2 ≠ []
        ↔ self.m_NextHighLimit < (monitorHigherLimit self (some powerStatus)).1.m_NextHighLimit)
      ∧ ((monitorHigherLimit self (some powerStatus)).2 ≠ [] →
          (monitorHigherLimit self (some powerStatus)).1.m_NextHighLimit
            = powerStatus.BatteryLifePercent)
      ∧ (resetFree self samples = true →
          (notifiedLevels self samples).Pairwise (fun x y => x < y)) := by
  obtain ⟨ac, p⟩ := powerStatus
  simp only at hp
  refine ⟨?_, ?_, fun hfree => (notifiedLevels_increasing samples self hu hs hfree).2⟩
  · rcases monitorHigherLimit_outcomes self ac p hp hu with ⟨hn, hnew, hlt⟩ | ⟨hn, hnew⟩
    · exact ⟨fun _ => by rw [hnew]; exact hlt, fun _ => hn⟩
    · refine ⟨fun h => absurd hn h, fun h => ?_⟩
      rcases hnew with h0 | h0 <;> omega
  · intro h
    rcases monitorHigherLimit_outcomes self ac p hp hu with ⟨_, hnew, _⟩ | ⟨hn, _⟩
    · exact hnew
    · exact absurd hn h

/-- C14 at a concrete input: limit 90, idle; the tick at 92 on AC power, and
the run 92, 92, 95, 93, 96 on AC power, whose notified levels are 92, 95,
96. -/
theorem notify_iff_pending_increases_witness :
    ((1 : Nat) ≤ (⟨true, 90, 0⟩ : CBatteryNotifier).m_HigherLimit
        ∧ (⟨1, 92⟩ : SYSTEM_POWER_STATUS).BatteryLifePercent ≤ 100
        ∧ ∀ s ∈ ([⟨1, 92⟩, ⟨1, 92⟩, ⟨1, 95⟩, ⟨1, 93⟩, ⟨1, 96⟩] : List SYSTEM_POWER_STATUS),
            s.BatteryLifePercent ≤ 100)
      ∧ (((monitorHigherLimit ⟨true, 90, 0⟩ (some ⟨1, 92⟩)).2 ≠ []
          ↔ (⟨true, 90, 0⟩ : CBatteryNotifier).m_NextHighLimit
              < (monitorHigherLimit ⟨true, 90, 0⟩ (some ⟨1, 92⟩)).1.m_NextHighLimit)
        ∧ ((monitorHigherLimit ⟨true, 90, 0⟩ (some ⟨1, 92⟩)).2 ≠ [] →
            (monitorHigherLimit ⟨true, 90, 0⟩ (some ⟨1, 92⟩)).1.m_NextHighLimit
              = (⟨1, 92⟩ : SYSTEM_POWER_STATUS).BatteryLifePercent)
        ∧ (resetFree ⟨true, 90, 0⟩ [⟨1, 92⟩, ⟨1, 92⟩, ⟨1, 95⟩, ⟨1, 93⟩, ⟨1, 96⟩] = true →
            (notifiedLevels ⟨true, 90, 0⟩
              [⟨1, 92⟩, ⟨1, 92⟩, ⟨1, 95⟩, ⟨1, 93⟩, ⟨1, 96⟩]).Pairwise (fun x y => x < y)))
      ∧ resetFree ⟨true, 90, 0⟩ [⟨1, 92⟩, ⟨1, 92⟩, ⟨1, 95⟩, ⟨1, 93⟩, ⟨1, 96⟩] = true
      ∧ notifiedLevels ⟨true, 90, 0⟩ [⟨1, 92⟩, ⟨1, 92⟩, ⟨1, 95⟩, ⟨1, 93⟩, ⟨1, 96⟩]
          = [92, 95, 96] :=
  ⟨by decide,
    notify_iff_pending_increases ⟨true, 90, 0⟩ ⟨1, 92⟩
      [⟨1, 92⟩, ⟨1, 92⟩, ⟨1, 95⟩, ⟨1, 93⟩, ⟨1, 96⟩] (by decide) (by decide) (by decide),
    by decide, by decide⟩

/-! ## The range check as written -/

/-- A string of digits is not the help switch. -/
theorem ne_help_of_digits (param : String) (hdig : ∀ c ∈ param.data, isdigit c = true) :
    param ≠ "/?" := by
  intro h
  subst h
  have h1 : isdigit '/' = true := hdig '/' (by decide)
  exact absurd h1 (by decide)

/-- What `processCommandLine` does with one numeric argument: the value
extracted at line 92 is stored, nothing is shown. -/
theorem processCommandLine_numeric (self : CBatteryNotifier) (prog param : String)
    (hnum : param.data ≠ [] ∧ ∀ c ∈ param.data, isdigit c = true) :
    processCommandLine self 2 [prog, param]
      = ({ self with m_HigherLimit := extractUnsigned param }, []) := by
  have hq : param ≠ "/?" := ne_help_of_digits param hnum.2
  have hn : isNumeric param = true := (isNumeric_iff param).2 hnum
  have hc : ¬ (5 > extractUnsigned param ∧ 99 < extractUnsigned param) := fun h => by omega
  simp [processCommandLine, hq, hn, hc]

/-- C15: for every non-empty argument made of digits whose value `v` fits in
an `unsigned int` (32 bits), the condition `5 > v && 99 < v` of line 93 is
false, and `processCommandLine` makes no `notifyUser` call, leaves
`m_bStartMonitoring` as it was (enabled, on the fresh object) and stores `v`
in `m_HigherLimit`. -/
theorem range_check_never_rejects (self : CBatteryNotifier) (prog param : String)
    (hnum : param.data ≠ [] ∧ ∀ c ∈ param.data, isdigit c = true)
    (hfit : decimalValue param.data ≤ 4294967295) :
    ¬ (5 > decimalValue param.data ∧ 99 < decimalValue param.data)
      ∧ processCommandLine self 2 [prog, param]
        = ({ self with m_HigherLimit := decimalValue param.data }, [])
      ∧ (processCommandLine self 2 [prog, param]).1.m_bStartMonitoring
        = self.m_bStartMonitoring := by
  have hx : extractUnsigned param = decimalValue param.data := by
    unfold extractUnsigned
    rw [if_pos hfit]
  have hpc := processCommandLine_numeric self prog param hnum
  rw [hx] at hpc
  refine ⟨fun h => by omega, hpc, ?_⟩
  rw [hpc]

/-- C15 at concrete inputs: the argument "4294967295" on the fresh object;
the arguments "0", "4" and "100" are stored the same way. -/
theorem range_check_never_rejects_witness :
    ((("4294967295" : String).data ≠ []
          ∧ ∀ c ∈ ("4294967295" : String).data, isdigit c = true)
        ∧ decimalValue ("4294967295" : String).data ≤ 4294967295)
      ∧ (¬ (5 > decimalValue ("4294967295" : String).data
            ∧ 99 < decimalValue ("4294967295" : String).data)
        ∧ processCommandLine instance0 2 ["BatteryNotifier.exe", "4294967295"]
          = ({ instance0 with m_HigherLimit := decimalValue ("4294967295" : String).data }, [])
        ∧ (processCommandLine instance0 2 ["BatteryNotifier.exe", "4294967295"]).1.m_bStartMonitoring
          = instance0.m_bStartMonitoring)
      ∧ decimalValue ("4294967295" : String).data = 4294967295
      ∧ processCommandLine instance0 2 ["BatteryNotifier.exe", "0"]
          = ({ instance0 with m_HigherLimit := 0 }, [])
      ∧ processCommandLine instance0 2 ["BatteryNotifier.exe", "4"]
          = ({ instance0 with m_HigherLimit := 4 }, [])
      ∧ processCommandLine instance0 2 ["BatteryNotifier.exe", "100"]
          = ({ instance0 with m_HigherLimit := 100 }, []) :=
  ⟨by decide,
    range_check_never_rejects instance0 "BatteryNotifier.exe" "4294967295" (by decide)
      (by decide),
    by decide, by decide, by decide, by decide⟩

/-! ## The order of the rules -/

/-- No two different rules have their guards open together. -/
theorem ruleGuard_exclusive (upperLimit pendingHighLimit : Nat) (s : PowerSample) (r1 r2 : Rule)
    (hne : r1 ≠ r2) :
    ¬ (ruleGuard upperLimit pendingHighLimit s r1 = true
        ∧ ruleGuard upperLimit pendingHighLimit s r2 = true) := by
  rintro ⟨h1, h2⟩
  cases r1 <;> cases r2 <;>
    first
    | exact absurd rfl hne
    | (simp only [ruleGuard, Bool.and_eq_true, decide_eq_true_eq] at h1 h2
       omega)

/-- The rules tried in the order of section 4.1 are the step `specStep`. -/
theorem specStepInOrder_canonical (upperLimit pendingHighLimit : Nat) (s : PowerSample) :
    specStepInOrder upperLimit pendingHighLimit s
        [Rule.firstCrossing, Rule.reset, Rule.reNotify]
      = specStep upperLimit pendingHighLimit s := by
  simp only [specStepInOrder, ruleGuard, ruleEffect, specStep, Bool.and_eq_true,
    decide_eq_true_eq, and_assoc]

/-- Three rules tried in any order without repetition give the step
`specStep`. -/
theorem specStepInOrder_any_order (upperLimit pendingHighLimit : Nat) (s : PowerSample)
    (a b c : Rule) (hab : a ≠ b) (hac : a ≠ c) (hbc : b ≠ c) :
    specStepInOrder upperLimit pendingHighLimit s [a, b, c]
      = specStep upperLimit pendingHighLimit s := by
  rw [← specStepInOrder_canonical]
  have e12 := ruleGuard_exclusive upperLimit pendingHighLimit s Rule.firstCrossing Rule.reset
    (by decide)
  have e13 := ruleGuard_exclusive upperLimit pendingHighLimit s Rule.firstCrossing Rule.reNotify
    (by decide)
  have e23 := ruleGuard_exclusive upperLimit pendingHighLimit s Rule.reset Rule.reNotify
    (by decide)
  cases a <;> cases b <;> cases c <;>
    first
    | exact absurd rfl hab
    | exact absurd rfl hac
    | exact absurd rfl hbc
    | rfl
    | (simp only [specStepInOrder]
       split_ifs <;> first | rfl | (exfalso; tauto))

/-- The code on a byte AC line status and a percentage in [0,100], written
with the step `specStep`. -/
theorem monitorHigherLimit_as_specStep (self : CBatteryNotifier) (ac p : Nat) (hac : ac < 256)
    (hp : p ≤ 100) :
    monitorHigherLimit self (some ⟨ac, p⟩)
      = ({ self with
            m_NextHighLimit :=
              (specStep self.m_HigherLimit self.m_NextHighLimit (sampleOf ⟨ac, p⟩)).2 },
          notifications (specStep self.m_HigherLimit self.m_NextHighLimit (sampleOf ⟨ac, p⟩)).1) := by
  have hc : 1 = toChar ac ↔ ac = 1 := one_eq_toChar_iff hac
  rw [monitorHigherLimit_some self ac p (by omega)]
  simp only [specStep, sampleOf, hc, decide_eq_true_eq]
  split_ifs <;> first | rfl | (exfalso; omega)

/-- C16: for every object, upper limit and sample with a percentage in
[0,100], the guards of the first crossing, the reset and the re-notify rule
are pairwise exclusive, and the step that tries the three rules in any order
`a, b, c` (each rule once) gives the decision and the next `pendingHighLimit`
of the canonical order, which are the `notifyUser` calls and the next
`m_NextHighLimit` of `monitorHigherLimit`. -/
theorem rule_order_immaterial (self : CBatteryNotifier) (powerStatus : SYSTEM_POWER_STATUS)
    (a b c : Rule) (hab : a ≠ b) (hac : a ≠ c) (hbc : b ≠ c)
    (hline : powerStatus.ACLineStatus < 256) (hp : powerStatus.BatteryLifePercent ≤ 100) :
    (∀ r1 r2 : Rule, r1 ≠ r2 →
        ¬ (ruleGuard self.m_HigherLimit self.m_NextHighLimit (sampleOf powerStatus) r1 = true
          ∧ ruleGuard self.m_HigherLimit self.m_NextHighLimit (sampleOf powerStatus) r2 = true))
      ∧ specStepInOrder self.m_HigherLimit self.m_NextHighLimit (sampleOf powerStatus) [a, b, c]
        = specStepInOrder self.m_HigherLimit self.m_NextHighLimit (sampleOf powerStatus)
            [Rule.firstCrossing, Rule.reset, Rule.reNotify]
      ∧ monitorHigherLimit self (some powerStatus)
        = ({ self with
              m_NextHighLimit :=
                (specStepInOrder self.m_HigherLimit self.m_NextHighLimit (sampleOf powerStatus)
                  [a, b, c]).2 },
            notifications
              (specStepInOrder self.m_HigherLimit self.m_NextHighLimit (sampleOf powerStatus)
                [a, b, c]).1) := by
  obtain ⟨ac, p⟩ := powerStatus
  simp only at hline hp
  refine ⟨fun r1 r2 hne => ruleGuard_exclusive _ _ _ r1 r2 hne, ?_, ?_⟩
  · rw [specStepInOrder_any_order _ _ _ a b c hab hac hbc, specStepInOrder_canonical]
  · rw [specStepInOrder_any_order _ _ _ a b c hab hac hbc]
    exact monitorHigherLimit_as_specStep self ac p hline hp

/-- C16 at a concrete input: armed at 90 with limit 90, the charging sample at
95, the rules tried in the order re-notify, reset, first crossing. -/
theorem rule_order_immaterial_witness :
    ((Rule.reNotify ≠ Rule.reset ∧ Rule.reNotify ≠ Rule.firstCrossing
          ∧ Rule.reset ≠ Rule.firstCrossing)
        ∧ (⟨1, 95⟩ : SYSTEM_POWER_STATUS).ACLineStatus < 256
        ∧ (⟨1, 95⟩ : SYSTEM_POWER_STATUS).BatteryLifePercent ≤ 100)
      ∧ ((∀ r1 r2 : Rule, r1 ≠ r2 →
          ¬ (ruleGuard 90 90 (sampleOf ⟨1, 95⟩) r1 = true
            ∧ ruleGuard 90 90 (sampleOf ⟨1, 95⟩) r2 = true))
        ∧ specStepInOrder 90 90 (sampleOf ⟨1, 95⟩)
            [Rule.reNotify, Rule.reset, Rule.firstCrossing]
          = specStepInOrder 90 90 (sampleOf ⟨1, 95⟩)
              [Rule.firstCrossing, Rule.reset, Rule.reNotify]
        ∧ monitorHigherLimit ⟨true, 90, 90⟩ (some ⟨1, 95⟩)
          = ({ (⟨true, 90, 90⟩ : CBatteryNotifier) with
                m_NextHighLimit :=
                  (specStepInOrder 90 90 (sampleOf ⟨1, 95⟩)
                    [Rule.reNotify, Rule.reset, Rule.firstCrossing]).2 },
              notifications
                (specStepInOrder 90 90 (sampleOf ⟨1, 95⟩)
                  [Rule.reNotify, Rule.reset, Rule.firstCrossing]).1)) :=
  ⟨by decide,
    rule_order_immaterial ⟨true, 90, 90⟩ ⟨1, 95⟩ Rule.reNotify Rule.reset Rule.firstCrossing
      (by decide) (by decide) (by decide) (by decide) (by decide)⟩

/-! ## No alert below the threshold -/

/-- A tick that notifies from an object whose `m_NextHighLimit` is 0 or at
least the upper limit has the charger on and a percentage at or above the
upper limit. -/
theorem notifying_tick_above_limit (self : CBatteryNotifier) (ac p : Nat) (hac : ac < 256)
    (hp : p ≤ 100)
    (hinv : self.m_NextHighLimit = 0 ∨ self.m_HigherLimit ≤ self.m_NextHighLimit)
    (hn : (monitorHigherLimit self (some ⟨ac, p⟩)).2 ≠ []) :
    ac = 1 ∧ self.m_HigherLimit ≤ p := by
  have hc : 1 = toChar ac ↔ ac = 1 := one_eq_toChar_iff hac
  rw [monitorHigherLimit_some self ac p (by omega)] at hn
  by_cases h1 : 1 = toChar ac ∧ 0 = self.m_NextHighLimit ∧ self.m_HigherLimit ≤ p
  · exact ⟨hc.1 h1.1, h1.2.2⟩
  · rw [if_neg h1] at hn
    by_cases h2 : self.m_NextHighLimit > p ∧ self.m_HigherLimit > p
    · rw [if_pos h2] at hn
      exact absurd rfl hn
    · rw [if_neg h2] at hn
      by_cases h3 : 1 = toChar ac ∧ 0 < self.m_NextHighLimit ∧ self.m_NextHighLimit < p
      · have hpos := h3.2.1
        have hlt := h3.2.2
        exact ⟨hc.1 h3.1, by omega⟩
      · rw [if_neg h3] at hn
        exact absurd rfl hn

/-- C17: with a fixed upper limit of at least 1, starting idle, in every
finite sequence of samples whose percentages are in [0,100] every tick that
calls `notifyUser` has the charger on and a percentage at or above the upper
limit; from the unreachable object with `m_NextHighLimit = 50` and limit 90
the charging sample at 60 does notify below the limit. -/
theorem no_alert_below_threshold (b : Bool) (upperLimit : Nat)
    (samples : List SYSTEM_POWER_STATUS) (k : Nat) (s : SYSTEM_POWER_STATUS)
    (_hu : 1 ≤ upperLimit)
    (hs : ∀ t ∈ samples, t.ACLineStatus < 256 ∧ t.BatteryLifePercent ≤ 100)
    (hk : samples[k]? = some s)
    (hn : (monitorHigherLimit (monitorLoop ⟨b, upperLimit, 0⟩ ((samples.take k).map some)).1
            (some s)).2 ≠ []) :
    (s.ACLineStatus = 1 ∧ upperLimit ≤ s.BatteryLifePercent)
      ∧ ((monitorHigherLimit ⟨true, 90, 50⟩ (some ⟨1, 60⟩)).2 ≠ [] ∧ ¬ (90 ≤ 60)) := by
  refine ⟨?_, by decide⟩
  have hmem : s ∈ samples := List.getElem?_mem hk
  have hinv := monitorLoop_keeps_invariant (samples.take k) ⟨b, upperLimit, 0⟩ []
    (fun t ht => hs t (List.mem_of_mem_take ht)) (Or.inl rfl)
  have hfr := (monitorLoop_frame ((samples.take k).map some) ⟨b, upperLimit, 0⟩).1
  have hinv2 : (monitorLoop ⟨b, upperLimit, 0⟩ ((samples.take k).map some)).1.m_NextHighLimit = 0
      ∨ (monitorLoop ⟨b, upperLimit, 0⟩ ((samples.take k).map some)).1.m_HigherLimit
          ≤ (monitorLoop ⟨b, upperLimit, 0⟩ ((samples.take k).map some)).1.m_NextHighLimit := by
    rcases hinv with h | h
    · exact Or.inl h
    · exact Or.inr (by rw [hfr]; exact h.1)
  obtain ⟨ac, p⟩ := s
  have h := notifying_tick_above_limit _ ac p (hs _ hmem).1 (hs _ hmem).2 hinv2 hn
  rw [hfr] at h
  exact h

/-- C17 at a concrete input: limit 90, the charging samples 89, 90, 95; the
third tick (after the first two) notifies. -/
theorem no_alert_below_threshold_witness :
    ((1 : Nat) ≤ 90
        ∧ (∀ t ∈ ([⟨1, 89⟩, ⟨1, 90⟩, ⟨1, 95⟩] : List SYSTEM_POWER_STATUS),
            t.ACLineStatus < 256 ∧ t.BatteryLifePercent ≤ 100)
        ∧ ([⟨1, 89⟩, ⟨1, 90⟩, ⟨1, 95⟩] : List SYSTEM_POWER_STATUS)[2]? = some ⟨1, 95⟩
        ∧ (monitorHigherLimit
            (monitorLoop ⟨true, 90, 0⟩
              ((([⟨1, 89⟩, ⟨1, 90⟩, ⟨1, 95⟩] : List SYSTEM_POWER_STATUS).take 2).map some)).1
            (some ⟨1, 95⟩)).2 ≠ [])
      ∧ (((⟨1, 95⟩ : SYSTEM_POWER_STATUS).ACLineStatus = 1
          ∧ 90 ≤ (⟨1, 95⟩ : SYSTEM_POWER_STATUS).BatteryLifePercent)
        ∧ ((monitorHigherLimit ⟨true, 90, 50⟩ (some ⟨1, 60⟩)).2 ≠ [] ∧ ¬ (90 ≤ 60))) :=
  ⟨by decide,
    no_alert_below_threshold true 90 [⟨1, 89⟩, ⟨1, 90⟩, ⟨1, 95⟩] 2 ⟨1, 95⟩ (by decide)
      (by decide) (by decide) (by decide)⟩

/-! ## Idempotence of a tick -/

/-- C18: for every object (any `m_NextHighLimit`), every upper limit of at
least 1 and every sample with a percentage in [0,100], the same sample fed
again right after the first feed makes no `notifyUser` call and returns the
object the first feed returned; this holds in particular when the first feed
was a reset. -/
theorem tick_idempotent (self : CBatteryNotifier) (powerStatus : SYSTEM_POWER_STATUS)
    (hu : 1 ≤ self.m_HigherLimit) (hp : powerStatus.BatteryLifePercent ≤ 100) :
    monitorHigherLimit (monitorHigherLimit self (some powerStatus)).1 (some powerStatus)
      = ((monitorHigherLimit self (some powerStatus)).1, []) := by
  obtain ⟨ac, p⟩ := powerStatus
  simp only at hp
  have hp7 : p ≤ 127 := by omega
  have second : ∀ st : CBatteryNotifier,
      ¬ (1 = toChar ac ∧ 0 = st.m_NextHighLimit ∧ st.m_HigherLimit ≤ p) →
      ¬ (st.m_NextHighLimit > p ∧ st.m_HigherLimit > p) →
      ¬ (1 = toChar ac ∧ 0 < st.m_NextHighLimit ∧ st.m_NextHighLimit < p) →
      monitorHigherLimit st (some ⟨ac, p⟩) = (st, []) := by
    intro st g1 g2 g3
    rw [monitorHigherLimit_some st ac p hp7, if_neg g1, if_neg g2, if_neg g3]
  rw [monitorHigherLimit_some self ac p hp7]
  by_cases h1 : 1 = toChar ac ∧ 0 = self.m_NextHighLimit ∧ self.m_HigherLimit ≤ p
  · rw [if_pos h1]
    have hge := h1.2.2
    exact second _ (fun h => by have := h.2.1; simp only at this; omega)
      (fun h => by have := h.1; simp only at this; omega)
      (fun h => by have := h.2.2; simp only at this; omega)
  · rw [if_neg h1]
    by_cases h2 : self.m_NextHighLimit > p ∧ self.m_HigherLimit > p
    · rw [if_pos h2]
      have hup := h2.2
      exact second _ (fun h => by have := h.2.2; simp only at this; omega)
        (fun h => by have := h.1; simp only at this; omega)
        (fun h => by have := h.2.1; simp only at this; omega)
    · rw [if_neg h2]
      by_cases h3 : 1 = toChar ac ∧ 0 < self.m_NextHighLimit ∧ self.m_NextHighLimit < p
      · rw [if_pos h3]
        have hpos := h3.2.1
        have hlt := h3.2.2
        exact second _ (fun h => by have := h.2.1; simp only at this; omega)
          (fun h => by have := h.1; simp only at this; omega)
          (fun h => by have := h.2.2; simp only at this; omega)
      · rw [if_neg h3]
        exact second self h1 h2 h3

/-- C18 at a concrete input: the unreachable object with `m_NextHighLimit = 50`
and limit 90, the sample at 40 on battery power, whose first feed is a
reset. -/
theorem tick_idempotent_witness :
    ((1 : Nat) ≤ (⟨true, 90, 50⟩ : CBatteryNotifier).m_HigherLimit
        ∧ (⟨0, 40⟩ : SYSTEM_POWER_STATUS).BatteryLifePercent ≤ 100)
      ∧ monitorHigherLimit (monitorHigherLimit ⟨true, 90, 50⟩ (some ⟨0, 40⟩)).1 (some ⟨0, 40⟩)
        = ((monitorHigherLimit ⟨true, 90, 50⟩ (some ⟨0, 40⟩)).1, [])
      ∧ (monitorHigherLimit ⟨true, 90, 50⟩ (some ⟨0, 40⟩)).1.m_NextHighLimit = 0 :=
  ⟨by decide, tick_idempotent ⟨true, 90, 50⟩ ⟨0, 40⟩ (by decide) (by decide), by decide⟩

/-! ## The effective threshold -/

/-- The signed-char cast of a byte in [128,255], converted to `unsigned int`,
is the byte plus `2^32 - 256`. -/
theorem toUnsigned_toChar_high {bt : Nat} (hlo : 128 ≤ bt) (hhi : bt ≤ 255) :
    toUnsigned (toChar bt) = 4294967040 + bt := by
  unfold toChar byteVal
  have h1 : bt % 256 = bt := by omega
  rw [h1, if_neg (by omega)]
  unfold toUnsigned
  omega

/-- One tick on a charging sample whose percentage byte is in [128,255], from
an object whose `m_NextHighLimit` is at most 255 and either positive or
paired with an upper limit not above the converted byte. -/
theorem monitorHigherLimit_high_byte (self : CBatteryNotifier) (bt : Nat) (hlo : 128 ≤ bt)
    (hhi : bt ≤ 255) (hnext : self.m_NextHighLimit ≤ 255)
    (hlim : self.m_HigherLimit ≤ 4294967040 + bt ∨ 1 ≤ self.m_NextHighLimit) :
    (monitorHigherLimit self (some ⟨1, bt⟩)).1 = { self with m_NextHighLimit := bt }
      ∧ (monitorHigherLimit self (some ⟨1, bt⟩)).2.length = 1 := by
  have hx := toUnsigned_toChar_high hlo hhi
  have hb : byteVal bt = bt := byteVal_of_lt (by omega)
  have hone : (1 : Int) = toChar 1 := by decide
  simp only [monitorHigherLimit, hx, hb]
  by_cases h0 : self.m_NextHighLimit = 0
  · have hu : self.m_HigherLimit ≤ 4294967040 + bt := by omega
    have g1 : 1 = toChar 1 ∧ 0 = self.m_NextHighLimit ∧ self.m_HigherLimit ≤ 4294967040 + bt :=
      ⟨hone, h0.symm, hu⟩
    rw [if_pos g1, if_pos hu]
    exact ⟨rfl, rfl⟩
  · have g1 : ¬ (1 = toChar 1 ∧ 0 = self.m_NextHighLimit
        ∧ self.m_HigherLimit ≤ 4294967040 + bt) := fun h => h0 h.2.1.symm
    have g2 : ¬ (self.m_NextHighLimit > 4294967040 + bt
        ∧ self.m_HigherLimit > 4294967040 + bt) := fun h => by omega
    have g3 : 1 = toChar 1 ∧ 0 < self.m_NextHighLimit
        ∧ self.m_NextHighLimit < 4294967040 + bt := ⟨hone, by omega, by omega⟩
    rw [if_neg g1, if_neg g2, if_pos g3]
    exact ⟨rfl, rfl⟩

/-- From an armed object with `m_NextHighLimit` at most 255, every tick of a
run of charging samples with percentage bytes in [128,255] makes one
`notifyUser` call and sets `m_NextHighLimit` to the byte. -/
theorem monitorTrace_high_bytes (bytes : List Nat) :
    ∀ self : CBatteryNotifier, 1 ≤ self.m_NextHighLimit → self.m_NextHighLimit ≤ 255 →
      (∀ c ∈ bytes, 128 ≤ c ∧ c ≤ 255) →
      (monitorTrace self (bytes.map (fun c => some ⟨1, c⟩))).map
          (fun r => (r.1.m_NextHighLimit, r.2.length))
        = bytes.map (fun c => (c, 1)) := by
  induction bytes with
  | nil =>
    intro self _ _ _
    rfl
  | cons bt rest ih =>
    intro self hpos hnext hb
    have hbt := hb bt (List.mem_cons_self _ _)
    have htick := monitorHigherLimit_high_byte self bt hbt.1 hbt.2 hnext (Or.inr hpos)
    have hnew : (monitorHigherLimit self (some ⟨1, bt⟩)).1.m_NextHighLimit = bt := by
      rw [htick.1]
    have hih := ih (monitorHigherLimit self (some ⟨1, bt⟩)).1 (by rw [hnew]; omega)
      (by rw [hnew]; omega) (fun c hc => hb c (List.mem_cons_of_mem _ hc))
    simp only [List.map_cons, monitorTrace, hih, hnew, htick.2]

/-- C20, as stated, fails for a large upper limit: with `m_HigherLimit =
4294967295` (a 32-bit value, stored for the argument "4294967295"),
`m_NextHighLimit = 0`, the AC line on and the percentage byte 128, the
converted cast 4294967168 is not greater than the upper limit and the tick
makes no `notifyUser` call and leaves `m_NextHighLimit = 0`. -/
theorem high_byte_large_limit_counterexample :
    ((128 : Nat) ≤ 128 ∧ (128 : Nat) ≤ 255 ∧ (4294967295 : Nat) < 4294967296
        ∧ (0 : Nat) ≤ 255)
      ∧ (processCommandLine instance0 2 ["BatteryNotifier.exe", "4294967295"]).1
          = ⟨true, 4294967295, 0⟩
      ∧ toUnsigned (toChar 128) = 4294967168
      ∧ ¬ (toUnsigned (toChar 128) > 4294967295)
      ∧ monitorHigherLimit ⟨true, 4294967295, 0⟩ (some ⟨1, 128⟩)
          = (⟨true, 4294967295, 0⟩, []) := by
  decide

/-- C20, amended: for every percentage byte `b` in [128,255] with the AC line
on, every `m_NextHighLimit ≤ 255` and every `m_HigherLimit` that is at most
`b - 256` modulo `2^32` (that is `4294967040 + b`) or comes with
`m_NextHighLimit ≥ 1`, the signed-char cast of `b` converted to unsigned 32
bits is `4294967040 + b`, greater than `m_NextHighLimit`, and
`monitorHigherLimit` makes one `notifyUser` call and sets
`m_NextHighLimit = b`; on a sequence of such ticks (bytes `b` then `rest`,
all in [128,255]) every tick makes one call and sets `m_NextHighLimit` to its
byte. -/
theorem high_byte_notifies_every_tick (self : CBatteryNotifier) (bt : Nat) (rest : List Nat)
    (hlo : 128 ≤ bt) (hhi : bt ≤ 255) (hnext : self.m_NextHighLimit ≤ 255)
    (hlim : self.m_HigherLimit ≤ 4294967040 + bt ∨ 1 ≤ self.m_NextHighLimit)
    (hrest : ∀ c ∈ rest, 128 ≤ c ∧ c ≤ 255) :
    toUnsigned (toChar bt) = 4294967040 + bt
      ∧ self.m_NextHighLimit < toUnsigned (toChar bt)
      ∧ (monitorHigherLimit self (some ⟨1, bt⟩)).1 = { self with m_NextHighLimit := bt }
      ∧ (monitorHigherLimit self (some ⟨1, bt⟩)).2.length = 1
      ∧ (monitorTrace self ((bt :: rest).map (fun c => some ⟨1, c⟩))).map
            (fun r => (r.1.m_NextHighLimit, r.2.length))
          = (bt :: rest).map (fun c => (c, 1)) := by
  have hx := toUnsigned_toChar_high hlo hhi
  have htick := monitorHigherLimit_high_byte self bt hlo hhi hnext hlim
  have hnew : (monitorHigherLimit self (some ⟨1, bt⟩)).1.m_NextHighLimit = bt := by
    rw [htick.1]
  have htail := monitorTrace_high_bytes rest (monitorHigherLimit self (some ⟨1, bt⟩)).1
    (by rw [hnew]; omega) (by rw [hnew]; omega) hrest
  refine ⟨hx, by rw [hx]; omega, htick.1, htick.2, ?_⟩
  simp only [List.map_cons, monitorTrace, htail, hnew, htick.2]

/-- C20, amended, at a concrete input: idle with limit 90, the AC line on and
the percentage bytes 255, 255, 200. -/
theorem high_byte_notifies_every_tick_witness :
    ((128 : Nat) ≤ 255 ∧ (255 : Nat) ≤ 255
        ∧ (⟨true, 90, 0⟩ : CBatteryNotifier).m_NextHighLimit ≤ 255
        ∧ ((⟨true, 90, 0⟩ : CBatteryNotifier).m_HigherLimit ≤ 4294967040 + 255
          ∨ 1 ≤ (⟨true, 90, 0⟩ : CBatteryNotifier).m_NextHighLimit)
        ∧ ∀ c ∈ ([255, 200] : List Nat), 128 ≤ c ∧ c ≤ 255)
      ∧ (toUnsigned (toChar 255) = 4294967040 + 255
        ∧ (⟨true, 90, 0⟩ : CBatteryNotifier).m_NextHighLimit < toUnsigned (toChar 255)
        ∧ (monitorHigherLimit ⟨true, 90, 0⟩ (some ⟨1, 255⟩)).1
            = { (⟨true, 90, 0⟩ : CBatteryNotifier) with m_NextHighLimit := 255 }
        ∧ (monitorHigherLimit ⟨true, 90, 0⟩ (some ⟨1, 255⟩)).2.length = 1
        ∧ (monitorTrace ⟨true, 90, 0⟩
              (((255 : Nat) :: [255, 200]).map (fun c => some ⟨1, c⟩))).map
              (fun r => (r.1.m_NextHighLimit, r.2.length))
            = ((255 : Nat) :: [255, 200]).map (fun c => (c, 1))) :=
  ⟨by decide,
    high_byte_notifies_every_tick ⟨true, 90, 0⟩ 255 [255, 200] (by decide) (by decide)
      (by decide) (by decide) (by decide)⟩

end BatteryNotifier
